import Mathlib

/-!
# Verification of the lpRebalHedge backtester core

Shallow embedding, over exact rationals, of the final-behavior core modules of
the repository:

* `src/src/lp/lp.py`            — `LPModule` (concentrated-liquidity position)
* `src/src/perp/perp.py`        — `PerpModule` (perpetual hedge positions)
* `src/src/strategy/strategy.py`— `StrategyModule.generate_orders`
* `src/src/portfolio/portfolio.py` — `PortfolioModule` (central ledger)
* `src/src/engine/backtest_engine.py` — `BacktestEngine.run` (tick loop)

Python floats are modelled as `ℚ` (exact field arithmetic; every operation used
by the code is `+ - * / abs min max` and comparisons).  `math.sqrt`, which the
code uses only inside `LPModule._calculate_multiplier`, is modelled as an
explicit square-root oracle parameter `sqrtfn : ℚ → ℚ` passed to the
constructor; no theorem below depends on its value except through the stored
`multiplier` field, and concrete statements instantiate it explicitly.
Python `raise` / `try` is modelled with `Except`.
-/

namespace LpRebalHedge

/-! ## LP module (src/src/lp/lp.py) -/

/-- `LPConfig` dataclass of `src/src/lp/lp.py`. -/
structure LPConfig where
  initial_capital : ℚ := 10000
  range_width : ℚ := 1/10
  fee_tier : ℚ := 5/10000
  daily_volume : ℚ := 3560000
  pool_tvl : ℚ := 112480000
  rebalance_threshold : ℚ := 15/100
  gas_fee : ℚ := 2
  slippage : ℚ := 1/1000
  deriving DecidableEq, Repr

/-- `RebalanceResult` dataclass of `src/src/lp/lp.py`. -/
structure RebalanceResult where
  is_rebalanced : Bool
  swap_volume_usd : ℚ
  slippage_cost : ℚ
  gas_cost : ℚ
  deriving DecidableEq, Repr

/-- Mutable state of an `LPModule` instance (fields set in `LPModule.__init__`). -/
structure LPState where
  config : LPConfig
  current_price : ℚ
  position_value : ℚ
  range_lower : ℚ
  range_upper : ℚ
  multiplier : ℚ
  skew : ℚ
  accumulated_fees : ℚ
  rebalance_count : ℕ
  deriving DecidableEq, Repr

namespace LPModule

/-- `LPModule._calculate_multiplier`, with `math.sqrt` supplied as `sqrtfn`. -/
def calculate_multiplier (sqrtfn : ℚ → ℚ) (range_width : ℚ) : ℚ :=
  let lower := 1 - range_width
  let upper := 1 + range_width
  if lower ≤ 0 ∨ upper ≤ 0 then 0
  else
    let numerator : ℚ := 2
    let denominator : ℚ := 2 - 1 / sqrtfn upper - sqrtfn lower
    if denominator ≤ 0 then 1 else numerator / denominator

/-- `LPModule.__init__(config, start_price)`. -/
def init (sqrtfn : ℚ → ℚ) (config : LPConfig) (start_price : ℚ) : LPState :=
  { config := config
    current_price := start_price
    position_value := config.initial_capital
    range_lower := start_price * (1 - config.range_width)
    range_upper := start_price * (1 + config.range_width)
    multiplier := calculate_multiplier sqrtfn config.range_width
    skew := 1/2
    accumulated_fees := 0
    rebalance_count := 0 }

/-- `LPModule.update_price(new_price)`. -/
def update_price (st : LPState) (new_price : ℚ) : LPState :=
  if st.current_price ≤ 0 then { st with current_price := new_price }
  else
    let price_change_pct := (new_price - st.current_price) / st.current_price
    let base_asset_val := st.position_value * st.skew
    let quote_asset_val := st.position_value * (1 - st.skew)
    let new_base_asset_val := base_asset_val * (1 + price_change_pct)
    let value' := new_base_asset_val + quote_asset_val
    let skew' :=
      if new_price ≤ st.range_lower then 1
      else if new_price ≥ st.range_upper then 0
      else
        let range_size := st.range_upper - st.range_lower
        1 - (new_price - st.range_lower) / range_size
    { st with position_value := value', current_price := new_price, skew := skew' }

/-- `LPModule.collect_fee()`; returns the updated state and the fee collected. -/
def collect_fee (st : LPState) : LPState × ℚ :=
  if st.range_lower < st.current_price ∧ st.current_price < st.range_upper then
    let base_share := st.position_value / st.config.pool_tvl
    let volume_share := st.config.daily_volume / 24
    let hourly_fee := base_share * volume_share * st.config.fee_tier * st.multiplier
    ({ st with position_value := st.position_value + hourly_fee,
               accumulated_fees := st.accumulated_fees + hourly_fee }, hourly_fee)
  else (st, 0)

/-- `LPModule.check_and_rebalance()`. -/
def check_and_rebalance (st : LPState) : LPState × RebalanceResult :=
  let drift := |st.skew - 1/2|
  if drift > st.config.rebalance_threshold then
    let swap_volume := st.position_value * drift
    let slippage_cost := swap_volume * st.config.slippage
    let gas_cost := st.config.gas_fee
    let total_cost := slippage_cost + gas_cost
    ({ st with position_value := st.position_value - total_cost
               range_lower := st.current_price * (1 - st.config.range_width)
               range_upper := st.current_price * (1 + st.config.range_width)
               skew := 1/2
               rebalance_count := st.rebalance_count + 1 },
     { is_rebalanced := true, swap_volume_usd := swap_volume,
       slippage_cost := slippage_cost, gas_cost := gas_cost })
  else
    (st, { is_rebalanced := false, swap_volume_usd := 0, slippage_cost := 0, gas_cost := 0 })

/-- `LPModule.get_eth_inventory()`. -/
def get_eth_inventory (st : LPState) : ℚ :=
  if st.current_price ≤ 0 then 0
  else st.position_value * st.skew / st.current_price

end LPModule

/-! ## Perp module (src/src/perp/perp.py) -/

/-- `PositionSide` enum of `src/src/perp/perp.py`. -/
inductive PositionSide where
  | LONG
  | SHORT
  deriving DecidableEq, Repr

/-- `Position` dataclass of `src/src/perp/perp.py`. -/
structure Position where
  side : PositionSide
  size : ℚ
  entry_price : ℚ
  unrealized_pnl : ℚ := 0
  deriving DecidableEq, Repr

/-- `PerpConfig` dataclass of `src/src/perp/perp.py`. -/
structure PerpConfig where
  leverage : ℚ := 5
  taker_fee : ℚ := 5/10000
  deriving DecidableEq, Repr

/-- Mutable state of a `PerpModule` instance.  The Python
`positions : Dict[PositionSide, Position]` has exactly two possible keys, so it
is modelled as a pair of `Option Position` fields. -/
structure PerpState where
  config : PerpConfig
  long : Option Position := none
  short : Option Position := none
  current_market_price : ℚ := 0
  total_trading_fees : ℚ := 0
  total_funding_pnl : ℚ := 0
  deriving DecidableEq, Repr

namespace PerpModule

/-- Lookup `self.positions[side]` (or `None`). -/
def getPos (st : PerpState) (side : PositionSide) : Option Position :=
  match side with
  | .LONG => st.long
  | .SHORT => st.short

/-- Write `self.positions[side] = pos` (`pos = none` deletes the entry). -/
def setPos (st : PerpState) (side : PositionSide) (pos : Option Position) : PerpState :=
  match side with
  | .LONG => { st with long := pos }
  | .SHORT => { st with short := pos }

/-- Mark one position to market at `price` (loop body of `update_market_price`). -/
def markPos (price : ℚ) (pos : Position) : Position :=
  match pos.side with
  | .LONG => { pos with unrealized_pnl := pos.size * (price - pos.entry_price) }
  | .SHORT => { pos with unrealized_pnl := pos.size * (pos.entry_price - price) }

/-- `PerpModule.update_market_price(price)`. -/
def update_market_price (st : PerpState) (price : ℚ) : PerpState :=
  { st with current_market_price := price
            long := st.long.map (markPos price)
            short := st.short.map (markPos price) }

/-- `PerpModule.open_position(side, size_in_token, cex_wallet_balance)`.
Returns the updated state and the trading fee, or raises `MARGIN_CALL`. -/
def open_position (st : PerpState) (side : PositionSide) (size_in_token : ℚ)
    (cex_wallet_balance : ℚ) : Except String (PerpState × ℚ) :=
  if size_in_token ≤ 0 then .ok (st, 0)
  else
    let notional_value := size_in_token * st.current_market_price
    let trade_fee := notional_value * st.config.taker_fee
    let required_margin := notional_value / st.config.leverage
    if cex_wallet_balance - trade_fee < required_margin then
      .error "MARGIN_CALL"
    else
      let st' :=
        match getPos st side with
        | some pos =>
          let old_total_cost := pos.size * pos.entry_price
          let new_add_cost := size_in_token * st.current_market_price
          let new_total_size := pos.size + size_in_token
          let new_entry_price := (old_total_cost + new_add_cost) / new_total_size
          setPos st side (some { pos with size := new_total_size,
                                          entry_price := new_entry_price })
        | none =>
          setPos st side (some { side := side, size := size_in_token,
                                 entry_price := st.current_market_price })
      let st'' := { st' with total_trading_fees := st'.total_trading_fees + trade_fee }
      .ok (update_market_price st'' st''.current_market_price, trade_fee)

/-- `PerpModule.close_partial_position(side, size_to_close)`.
Returns `(state, realized_pnl, trade_fee)`. -/
def close_partial_position (st : PerpState) (side : PositionSide)
    (size_to_close : ℚ) : PerpState × ℚ × ℚ :=
  match getPos st side with
  | none => (st, 0, 0)
  | some pos =>
    let actual_close_size := min size_to_close pos.size
    let realized_pnl :=
      match side with
      | .LONG => actual_close_size * (st.current_market_price - pos.entry_price)
      | .SHORT => actual_close_size * (pos.entry_price - st.current_market_price)
    let trade_fee := actual_close_size * st.current_market_price * st.config.taker_fee
    let st1 := { st with total_trading_fees := st.total_trading_fees + trade_fee }
    let new_size := pos.size - actual_close_size
    let st2 :=
      if new_size ≤ 1/1000000000 then setPos st1 side none
      else update_market_price (setPos st1 side (some { pos with size := new_size }))
             st1.current_market_price
    (st2, realized_pnl, trade_fee)

/-- `PerpModule.apply_funding(rate)`; returns `(state, net_funding)`. -/
def apply_funding (st : PerpState) (rate : ℚ) : PerpState × ℚ :=
  let sideFunding : Option Position → PositionSide → ℚ := fun opt side =>
    match opt with
    | none => 0
    | some pos =>
      let payment := pos.size * st.current_market_price * rate
      match side with
      | .SHORT => payment
      | .LONG => -payment
  let net_funding := sideFunding st.long .LONG + sideFunding st.short .SHORT
  ({ st with total_funding_pnl := st.total_funding_pnl + net_funding }, net_funding)

/-- `PerpModule.get_short_position_size()`. -/
def get_short_position_size (st : PerpState) : ℚ :=
  match st.short with
  | some pos => pos.size
  | none => 0

/-- `PerpModule.get_total_unrealized_pnl()`. -/
def get_total_unrealized_pnl (st : PerpState) : ℚ :=
  (st.long.map Position.unrealized_pnl).getD 0 +
  (st.short.map Position.unrealized_pnl).getD 0

/-- `PerpModule.get_total_margin_used()`. -/
def get_total_margin_used (st : PerpState) : ℚ :=
  (st.long.map (fun pos => pos.size * st.current_market_price / st.config.leverage)).getD 0 +
  (st.short.map (fun pos => pos.size * st.current_market_price / st.config.leverage)).getD 0

/-- The margin locked by the position on one side (one summand of
`get_total_margin_used`). -/
def margin_of (st : PerpState) (side : PositionSide) : ℚ :=
  ((getPos st side).map (fun pos => pos.size * st.current_market_price / st.config.leverage)).getD 0

end PerpModule

/-! ## Portfolio module (src/src/portfolio/portfolio.py) -/

/-- `TransactionType` enum of `src/src/portfolio/portfolio.py` (v1.0.3). -/
inductive TransactionType where
  | REVENUE_LP_FEE
  | REVENUE_FUNDING
  | EXPENSE_GAS
  | EXPENSE_PERP_FEE
  | EXPENSE_SLIPPAGE
  | EXPENSE_FUNDING
  | DEPOSIT
  deriving DecidableEq, Repr

/-- Mutable state of a `PortfolioModule` instance.  The Python
`ledgers : Dict[TransactionType, float]` is modelled as a partial map; note
that `__init__` puts only six of the seven enum members into the dict
(`DEPOSIT` is absent). -/
structure PortfolioState where
  initial_capital : ℚ
  idle_cash : ℚ
  lp_allocated_cash : ℚ
  ledgers : TransactionType → Option ℚ

namespace PortfolioModule

/-- `PortfolioModule.__init__(initial_capital)`. -/
def init (initial_capital : ℚ) : PortfolioState :=
  { initial_capital := initial_capital
    idle_cash := initial_capital
    lp_allocated_cash := 0
    ledgers := fun category =>
      match category with
      | .DEPOSIT => none
      | _ => some 0 }

/-- `PortfolioModule.allocate_to_lp(amount)`; returns `(state, allocation)`. -/
def allocate_to_lp (st : PortfolioState) (amount : ℚ) : PortfolioState × ℚ :=
  let allocation := min amount st.idle_cash
  ({ st with idle_cash := st.idle_cash - allocation
             lp_allocated_cash := st.lp_allocated_cash + allocation }, allocation)

/-- `PortfolioModule.record_transaction(category, amount)`. -/
def record_transaction (st : PortfolioState) (category : TransactionType)
    (amount : ℚ) : PortfolioState :=
  match st.ledgers category with
  | some v =>
    { st with
      ledgers := fun c => if c = category then some (v + amount) else st.ledgers c
      idle_cash := st.idle_cash + amount }
  | none => st

/-- `PortfolioModule.get_net_equity(current_lp_value, current_perp_pnl)`. -/
def get_net_equity (st : PortfolioState) (current_lp_value current_perp_pnl : ℚ) : ℚ :=
  st.idle_cash + current_lp_value + current_perp_pnl

end PortfolioModule

/-! ## Strategy module (src/src/strategy/strategy.py) -/

/-- `StrategyConfig` dataclass of `src/src/strategy/strategy.py`. -/
structure StrategyConfig where
  ema_period : ℕ := 200
  safety_net_pct : ℚ := 2/100
  hedge_threshold : ℚ := 5/100
  deriving DecidableEq, Repr

/-- `OrderEvent` dataclass of `src/src/strategy/strategy.py` (timestamps are
modelled as integer epoch seconds). -/
structure OrderEvent where
  timestamp : ℤ
  target_module : String
  action : String
  target_size : ℚ
  reason : String
  deriving DecidableEq, Repr

namespace StrategyModule

/-- `StrategyModule.generate_orders(current_tick, config)`.  The values the
method reads from its dependencies and from the tick row are passed directly:
`signal` and `pct_change` come from the data frame row, `actual_eth` is
`self.lp.get_eth_inventory()` and `current_short` is
`self.perp.get_short_position_size()`. -/
def generate_orders (timestamp : ℤ) (signal : ℤ) (pct_change : ℚ)
    (actual_eth current_short : ℚ) (config : StrategyConfig) : List OrderEvent :=
  let signalEff : ℤ :=
    if signal = 1 ∧ pct_change ≤ -config.safety_net_pct then -1 else signal
  let is_safety_trigger : Bool :=
    decide (signal = 1 ∧ pct_change ≤ -config.safety_net_pct)
  let target_short : ℚ := if signalEff = -1 then actual_eth else 0
  let is_flip : Bool :=
    decide ((target_short = 0 ∧ current_short > 0) ∨ (target_short > 0 ∧ current_short = 0))
  let diff := |target_short - current_short|
  let needs_adjustment : Bool :=
    if is_flip then true
    else if target_short > 0 then
      let drift_ratio := diff / target_short
      decide (drift_ratio > config.hedge_threshold)
    else false
  if needs_adjustment then
    let action_type : String :=
      if ¬is_flip ∧ target_short > 0 then "ADJUST_HEDGE"
      else if target_short > 0 then "HEDGE_ON" else "HEDGE_OFF"
    let reason : String :=
      if is_safety_trigger then "Safety Net Triggered"
      else if is_flip then "Signal Flip" else "Threshold Drift"
    [{ timestamp := timestamp, target_module := "PERP", action := action_type,
       target_size := target_short, reason := reason }]
  else []

end StrategyModule

/-! ## Engine (src/src/engine/backtest_engine.py)

`BacktestEngine` is written against a `PortfolioModule` variant (with a
`cex_wallet_balance` attribute and `WITHDRAWAL` transaction category and a
four-argument `get_state`) and a `PerpModule.close_position` method that are
not present under `src/`; only their callers (`backtest_engine.py`,
`main.py`, `app.py`) and tests (`tests/test_perp.py`) are.  Those two pieces
are modelled from the spec below; everything else is translated from
`backtest_engine.py`. -/

/-- Transaction categories used by `BacktestEngine` (the union of the ledger
categories of the spec's §4.4 Ledger, including the `WITHDRAWAL` member that
the engine references). -/
inductive EngineTx where
  | REVENUE_LP_FEE
  | REVENUE_FUNDING
  | EXPENSE_GAS
  | EXPENSE_PERP_FEE
  | EXPENSE_SLIPPAGE
  | EXPENSE_FUNDING
  | DEPOSIT
  | WITHDRAWAL
  deriving DecidableEq, Repr

/-- Modelled from the spec: the ledger variant the engine is written against
("`recordTransaction(category, signedAmount)`: updates the category total; if
category ∈ {hedge fee, funding revenue/expense, realized PnL deposit,
withdrawal, venue sweep} also adjusts `exchangeWalletBalance` by the same
amount; LP-fee/gas/slippage categories are tracked but never touch wallet
cash").  The source `PortfolioModule` under `src/` has neither
`cex_wallet_balance` nor a `WITHDRAWAL` category. -/
structure EnginePortfolio where
  initial_capital : ℚ
  cex_wallet_balance : ℚ
  ledgers : EngineTx → ℚ

namespace EnginePortfolio

/-- Whether a category is venue-crossing (moves exchange wallet cash), per the
spec's §4.4. -/
def crossesVenue : EngineTx → Bool
  | .EXPENSE_PERP_FEE => true
  | .REVENUE_FUNDING => true
  | .EXPENSE_FUNDING => true
  | .DEPOSIT => true
  | .WITHDRAWAL => true
  | _ => false

/-- Modelled from the spec: `recordTransaction(category, signedAmount)`. -/
def record_transaction (st : EnginePortfolio) (category : EngineTx)
    (amount : ℚ) : EnginePortfolio :=
  { st with
    ledgers := fun c => if c = category then st.ledgers c + amount else st.ledgers c
    cex_wallet_balance :=
      if crossesVenue category then st.cex_wallet_balance + amount
      else st.cex_wallet_balance }

end EnginePortfolio

namespace PerpModule

/-- Modelled from the spec: `PerpModule.close_position(side)` (absent from
`src/src/perp/perp.py`; called by the engine's `HEDGE_OFF` branch and by
`tests/test_perp.py`).  Per the spec's `reduceOrClose` with `closeSize≥size`:
remove the position, fee = full notional · takerFeeRate; the test asserts it
returns the fee and accumulates it into `total_trading_fees`. -/
def close_position (st : PerpState) (side : PositionSide) : PerpState × ℚ :=
  match getPos st side with
  | none => (st, 0)
  | some pos =>
    let trade_fee := pos.size * st.current_market_price * st.config.taker_fee
    (setPos { st with total_trading_fees := st.total_trading_fees + trade_fee } side none,
     trade_fee)

end PerpModule

/-- One row of the prepared data frame (after `populate_indicators` and
`populate_signals`): date (epoch seconds), close, single-tick percentage
change, and the EMA trend signal. -/
structure Tick where
  date : ℤ
  close : ℚ
  pct_change : ℚ
  signal : ℤ
  deriving DecidableEq, Repr

namespace StrategyModule

/-- Tail of the `ewm(span, adjust=False).mean()` recursion:
`e_t = (1-α)·e_(t-1) + α·c_t`. -/
def emaAux (alpha : ℚ) (prev : ℚ) : List ℚ → List ℚ
  | [] => []
  | c :: cs =>
    let e := (1 - alpha) * prev + alpha * c
    e :: emaAux alpha e cs

/-- `df['close'].ewm(span=period, adjust=False).mean()` (seeded with the first
close, as pandas does for `adjust=False`). -/
def emaList (alpha : ℚ) : List ℚ → List ℚ
  | [] => []
  | c :: cs => c :: emaAux alpha c cs

/-- Tail of `df['close'].pct_change()`. -/
def pctAux (prev : ℚ) : List ℚ → List ℚ
  | [] => []
  | c :: cs => (c - prev) / prev :: pctAux c cs

/-- `df['close'].pct_change().fillna(0.0)`. -/
def pctList : List ℚ → List ℚ
  | [] => []
  | c :: cs => 0 :: pctAux c cs

/-- `populate_indicators` followed by `populate_signals`, producing the rows
the engine loop iterates over (`signal = 1` iff `close > ema`, else `-1`). -/
def buildTicks (config : StrategyConfig) (feed : List (ℤ × ℚ)) : List Tick :=
  let closes := feed.map Prod.snd
  let alpha : ℚ := 2 / ((config.ema_period : ℚ) + 1)
  let rows := feed.zip ((emaList alpha closes).zip (pctList closes))
  rows.map fun r =>
    { date := r.1.1, close := r.1.2, pct_change := r.2.2,
      signal := if r.1.2 > r.2.1 then 1 else -1 }

end StrategyModule

/-- Harvest configuration (the engine parses it from a dict; `enabled`,
`withdrawal_freq_days`, `target_amount`). -/
structure HarvestConfig where
  enabled : Bool
  withdrawal_freq_days : ℤ := 30
  target_amount : ℚ := 0
  deriving DecidableEq, Repr

/-- Cross-margin sweep configuration (`enabled`, `freq_days`). -/
structure CrossConfig where
  enabled : Bool
  freq_days : ℤ := 30
  deriving DecidableEq, Repr

/-- Fields set in `BacktestEngine.__init__`. -/
structure EngineState where
  lp : LPState
  perp : PerpState
  port : EnginePortfolio
  hedge_count : ℕ
  margin_call_count : ℕ
  withdrawal_count : ℕ
  cross_rebalance_count : ℕ
  total_swept_to_cex : ℚ
  total_swept_to_lp : ℚ
  lp_initial_capital : ℚ

/-- One record of the engine's `history` output table (the modelled
four-argument `get_state` snapshot plus the extra columns the loop adds). -/
structure EngineRow where
  timestamp : ℤ
  net_equity : ℚ
  cex_wallet_balance : ℚ
  available_margin : ℚ
  lp_value : ℚ
  perp_pnl : ℚ
  total_fees_collected : ℚ
  total_costs : ℚ
  event : List String
  price : ℚ
  perp_size : ℚ
  lp_eth : ℚ

namespace BacktestEngine

/-- `BacktestEngine.__init__(oracle, lp, perp, strategy, portfolio)`. -/
def init (lp : LPState) (perp : PerpState) (port : EnginePortfolio) : EngineState :=
  { lp := lp, perp := perp, port := port
    hedge_count := 0, margin_call_count := 0, withdrawal_count := 0
    cross_rebalance_count := 0, total_swept_to_cex := 0, total_swept_to_lp := 0
    lp_initial_capital := lp.config.initial_capital }

/-- `BacktestEngine.get_margin_snapshot()["available"]`:
`wallet + unrealized PnL - margin used`. -/
def available_margin (eng : EngineState) : ℚ :=
  eng.port.cex_wallet_balance + PerpModule.get_total_unrealized_pnl eng.perp
    - PerpModule.get_total_margin_used eng.perp

/-- `BacktestEngine._execute_perp_order(order, price, event_list)`.
Returns the updated engine state and the events appended, or propagates the
`MARGIN_CALL` error raised by `open_position`. -/
def execute_perp_order (eng : EngineState) (order : OrderEvent) (_price : ℚ) :
    Except String (EngineState × List String) :=
  if order.action = "HEDGE_ON" ∨ order.action = "ADJUST_HEDGE" then
    let current_short := PerpModule.get_short_position_size eng.perp
    let diff := order.target_size - current_short
    if diff > 0 then
      match PerpModule.open_position eng.perp .SHORT diff eng.port.cex_wallet_balance with
      | .error e => .error e
      | .ok (perp', fee) =>
        let port' := eng.port.record_transaction .EXPENSE_PERP_FEE (-fee)
        .ok ({ eng with perp := perp', port := port', hedge_count := eng.hedge_count + 1 },
             ["HEDGE_INC(" ++ order.reason ++ ")"])
    else if diff < 0 ∧ order.action = "ADJUST_HEDGE" then
      let size_to_close := |diff|
      let r := PerpModule.close_partial_position eng.perp .SHORT size_to_close
      let port' := (eng.port.record_transaction .DEPOSIT r.2.1).record_transaction
        .EXPENSE_PERP_FEE (-r.2.2)
      .ok ({ eng with perp := r.1, port := port', hedge_count := eng.hedge_count + 1 },
           ["HEDGE_DEC(" ++ order.reason ++ ")"])
    else .ok (eng, [])
  else if order.action = "HEDGE_OFF" then
    match eng.perp.short with
    | some pos =>
      let realized_pnl := pos.unrealized_pnl
      let r := PerpModule.close_position eng.perp .SHORT
      let port' := (eng.port.record_transaction .DEPOSIT realized_pnl).record_transaction
        .EXPENSE_PERP_FEE (-r.2)
      .ok ({ eng with perp := r.1, port := port', hedge_count := eng.hedge_count + 1 },
           ["HEDGE_OFF"])
    | none => .ok (eng, [])
  else .ok (eng, [])

/-- `BacktestEngine._attempt_rescue(order, price)`.  Returns the updated state
and the amount transferred (`0.0` if no rescue happened). -/
def attempt_rescue (eng : EngineState) (order : OrderEvent) (price : ℚ) :
    EngineState × ℚ :=
  let avail := available_margin eng
  let current_short_size := PerpModule.get_short_position_size eng.perp
  let target_diff := |order.target_size - current_short_size|
  let notional_needed := target_diff * price
  let margin_needed := notional_needed / eng.perp.config.leverage
    + notional_needed * eng.perp.config.taker_fee
  let deficit := margin_needed - avail + 50
  let current_lp_profit := eng.lp.position_value - eng.lp_initial_capital
  let max_allowed_rescue := max 0 (current_lp_profit * (8/10))
  let actual_rescue := min deficit max_allowed_rescue
  if actual_rescue > 10 then
    let lp' := { eng.lp with position_value := eng.lp.position_value - actual_rescue }
    let port' := (eng.port.record_transaction .WITHDRAWAL (-actual_rescue)).record_transaction
      .DEPOSIT actual_rescue
    ({ eng with lp := lp', port := port' }, actual_rescue)
  else (eng, 0)

/-- `BacktestEngine._log_margin_failure(...)`: appends a margin-call record
(modelled as a counter) and the `MARGIN_CALL_REJECT` event tag. -/
def log_margin_failure (eng : EngineState) : EngineState × List String :=
  ({ eng with margin_call_count := eng.margin_call_count + 1 }, ["MARGIN_CALL_REJECT"])

/-- The `try/except ValueError` block of the engine loop around one order:
on `MARGIN_CALL`, attempt the emergency rescue, retry once, and otherwise log
a margin-call reject; never propagates the failure. -/
def hedge_try (eng : EngineState) (order : OrderEvent) (price : ℚ) :
    EngineState × List String :=
  match execute_perp_order eng order price with
  | .ok r => r
  | .error _ =>
    let rescue := attempt_rescue eng order price
    if rescue.2 > 0 then
      match execute_perp_order rescue.1 order price with
      | .ok r => (r.1, "EMERGENCY_RESCUE" :: r.2)
      | .error _ =>
        let lg := log_margin_failure rescue.1
        (lg.1, "EMERGENCY_RESCUE" :: lg.2)
    else
      let lg := log_margin_failure rescue.1
      (lg.1, lg.2)

/-- `BacktestEngine._perform_capital_sweep(event_list)`. -/
def perform_capital_sweep (eng : EngineState) : EngineState × List String :=
  let pnl := PerpModule.get_total_unrealized_pnl eng.perp
  let avail := available_margin eng
  let current_lp := eng.lp.position_value
  let current_cex_equity := eng.port.cex_wallet_balance + pnl
  let total_eq := current_lp + current_cex_equity
  let initial_lp := eng.lp_initial_capital
  let initial_cex := eng.port.initial_capital - initial_lp
  let initial_total := initial_lp + initial_cex
  let target_lp := total_eq * (initial_lp / initial_total)
  let transfer_to_cex := current_lp - target_lp
  if transfer_to_cex > 10 then
    ({ eng with
       lp := { eng.lp with position_value := eng.lp.position_value - transfer_to_cex }
       port := { eng.port with
                 cex_wallet_balance := eng.port.cex_wallet_balance + transfer_to_cex }
       total_swept_to_cex := eng.total_swept_to_cex + transfer_to_cex
       cross_rebalance_count := eng.cross_rebalance_count + 1 },
     ["SWEEP_LP_TO_CEX"])
  else if transfer_to_cex < -10 then
    let amt_to_move := |transfer_to_cex|
    let actual_transfer := min amt_to_move avail
    if actual_transfer > 10 then
      ({ eng with
         lp := { eng.lp with position_value := eng.lp.position_value + actual_transfer }
         port := { eng.port with
                   cex_wallet_balance := eng.port.cex_wallet_balance - actual_transfer }
         total_swept_to_lp := eng.total_swept_to_lp + actual_transfer
         cross_rebalance_count := eng.cross_rebalance_count + 1 },
       ["SWEEP_CEX_TO_LP"])
    else (eng, [])
  else (eng, [])

/-- The parsed run options (`BacktestEngine.run` keyword arguments after the
config-dict parsing at the top of `run`). -/
structure RunParams where
  strategy_config : StrategyConfig
  funding_rate : ℚ
  withdraw_enabled : Bool
  withdraw_freq : ℤ
  withdraw_target : ℚ
  cap_rebal_enabled : Bool
  cap_rebal_freq : ℤ
  execution_interval_min : ℤ

/-- The loop-carried state of `BacktestEngine.run` (the engine state, the
`last_*` bookkeeping dates and the accumulated `history`, newest first). -/
structure LoopState where
  eng : EngineState
  last_execution_time : ℤ
  last_funding_time : ℤ
  last_cap_rebal_date : ℤ
  last_withdrawal_date : ℤ
  history : List EngineRow

/-- Phases 1–6 of one iteration of the engine loop (everything except the
history append): mark-to-market, fee accrual, the execution block (rebalance
check plus hedge decision/execution with margin-call recovery), cross-margin
sweep, passive withdrawal, and funding. Returns the new engine state, the
four `last_*` dates, and the accumulated event tags. -/
def tick_phases (p : RunParams) (ls : LoopState) (t : Tick) :
    EngineState × (ℤ × ℤ × ℤ × ℤ) × List String :=
  -- 1. Mark-to-market
  let eng1 := { ls.eng with
                lp := LPModule.update_price ls.eng.lp t.close
                perp := PerpModule.update_market_price ls.eng.perp t.close }
  -- 2. LP fee collection
  let feeRes := LPModule.collect_fee eng1.lp
  let eng2 := { eng1 with
                lp := feeRes.1
                port := if feeRes.2 > 0 then
                    eng1.port.record_transaction .REVENUE_LP_FEE feeRes.2
                  else eng1.port }
  -- 3. Execution block
  let can_execute := t.date - ls.last_execution_time ≥ p.execution_interval_min * 60
  let execRes : EngineState × List String × ℤ :=
    if can_execute then
      let rebalRes := LPModule.check_and_rebalance eng2.lp
      let eng3 := { eng2 with lp := rebalRes.1 }
      let (eng4, ev1) :=
        if rebalRes.2.is_rebalanced then
          let port3 := eng3.port.record_transaction .EXPENSE_GAS (-rebalRes.2.gas_cost)
          let port4 := port3.record_transaction .EXPENSE_SLIPPAGE (-rebalRes.2.slippage_cost)
          ({ eng3 with port := port4 }, ["LP_REBALANCE"])
        else (eng3, [])
      let orders := StrategyModule.generate_orders t.date t.signal t.pct_change
        (LPModule.get_eth_inventory eng4.lp)
        (PerpModule.get_short_position_size eng4.perp) p.strategy_config
      let hedged := orders.foldl
        (fun acc order =>
          let r := hedge_try acc.1 order t.close
          (r.1, acc.2 ++ r.2))
        (eng4, ev1)
      (hedged.1, hedged.2, t.date)
    else (eng2, [], ls.last_execution_time)
  let eng5 := execRes.1
  -- 4. Cross-margin sweep
  let sweepRes : EngineState × List String × ℤ :=
    if p.cap_rebal_enabled ∧ t.date - ls.last_cap_rebal_date ≥ p.cap_rebal_freq * 86400 then
      let s := perform_capital_sweep eng5
      (s.1, s.2, t.date)
    else (eng5, [], ls.last_cap_rebal_date)
  let eng6 := sweepRes.1
  -- 5. Passive income withdrawal
  let withdrawRes : EngineState × List String × ℤ :=
    if p.withdraw_enabled ∧ (t.date - ls.last_withdrawal_date).fdiv 86400 ≥ p.withdraw_freq then
      let current_lp_profit := eng6.lp.position_value - eng6.lp_initial_capital
      if current_lp_profit > 0 then
        let actual_withdraw := min p.withdraw_target current_lp_profit
        ({ eng6 with
           lp := { eng6.lp with position_value := eng6.lp.position_value - actual_withdraw }
           port := eng6.port.record_transaction .WITHDRAWAL (-actual_withdraw)
           withdrawal_count := eng6.withdrawal_count + 1 },
         ["PASSIVE_WITHDRAWAL"], t.date)
      else (eng6, [], ls.last_withdrawal_date)
    else (eng6, [], ls.last_withdrawal_date)
  let eng7 := withdrawRes.1
  -- 6. Funding settlement (every 8 hours)
  let fundRes : EngineState × List String × ℤ :=
    if t.date - ls.last_funding_time ≥ 8 * 3600 then
      let f := PerpModule.apply_funding eng7.perp p.funding_rate
      let eng8 :=
        if f.2 ≠ 0 then
          { eng7 with
            perp := f.1
            port := eng7.port.record_transaction
              (if f.2 > 0 then .REVENUE_FUNDING else .EXPENSE_FUNDING) f.2 }
        else { eng7 with perp := f.1 }
      (eng8, if f.2 ≠ 0 then ["FUNDING_PAYMENT"] else [], t.date)
    else (eng7, [], ls.last_funding_time)
  let events := execRes.2.1 ++ sweepRes.2.1 ++ withdrawRes.2.1 ++ fundRes.2.1
  (fundRes.1, (execRes.2.2, fundRes.2.2, sweepRes.2.2, withdrawRes.2.2), events)

/-- Phase 7: the snapshot row appended to `history` (the modelled
four-argument `get_state` of the engine's portfolio variant plus the extra
columns the loop adds to `state_dict`). -/
def snapshot_row (eng : EngineState) (t : Tick) (events : List String) : EngineRow :=
  let pnl := PerpModule.get_total_unrealized_pnl eng.perp
  { timestamp := t.date
    net_equity := eng.port.cex_wallet_balance + eng.lp.position_value + pnl
    cex_wallet_balance := eng.port.cex_wallet_balance
    available_margin := available_margin eng
    lp_value := eng.lp.position_value
    perp_pnl := pnl
    total_fees_collected := eng.port.ledgers .REVENUE_LP_FEE
    total_costs := |eng.port.ledgers .EXPENSE_GAS| + |eng.port.ledgers .EXPENSE_PERP_FEE|
      + |eng.port.ledgers .EXPENSE_SLIPPAGE|
    event := events
    price := t.close
    perp_size := PerpModule.get_short_position_size eng.perp
    lp_eth := LPModule.get_eth_inventory eng.lp }

/-- One full iteration of the engine loop (phases 1–7). -/
def step (p : RunParams) (ls : LoopState) (t : Tick) : LoopState :=
  let r := tick_phases p ls t
  { eng := r.1
    last_execution_time := r.2.1.1
    last_funding_time := r.2.1.2.1
    last_cap_rebal_date := r.2.1.2.2.1
    last_withdrawal_date := r.2.1.2.2.2
    history := snapshot_row r.1 t r.2.2 :: ls.history }

/-- `BacktestEngine.run(data_feed, strategy_config, funding_rate,
harvest_config, cross_rebalance_config, execution_interval_min)`.
The initial `.iloc[0]` on the date column raises `IndexError` on an empty frame
(modelled as the error case); `datetime(1970, 1, 1)` is epoch second `0`. -/
def run (eng : EngineState) (feed : List (ℤ × ℚ)) (strategy_config : StrategyConfig)
    (funding_rate : ℚ) (harvest_config : Option HarvestConfig)
    (cross_rebalance_config : Option CrossConfig) (execution_interval_min : ℤ) :
    Except String (List EngineRow) :=
  let ticks := StrategyModule.buildTicks strategy_config feed
  match ticks with
  | [] => .error "IndexError"
  | t0 :: _ =>
    let p : RunParams :=
      { strategy_config := strategy_config
        funding_rate := funding_rate
        withdraw_enabled := (harvest_config.map HarvestConfig.enabled).getD false
        withdraw_freq := (harvest_config.map HarvestConfig.withdrawal_freq_days).getD 30
        withdraw_target := (harvest_config.map HarvestConfig.target_amount).getD 0
        cap_rebal_enabled := (cross_rebalance_config.map CrossConfig.enabled).getD false
        cap_rebal_freq := (cross_rebalance_config.map CrossConfig.freq_days).getD 30
        execution_interval_min := execution_interval_min }
    let ls0 : LoopState :=
      { eng := eng, last_execution_time := 0, last_funding_time := t0.date
        last_cap_rebal_date := t0.date, last_withdrawal_date := t0.date, history := [] }
    .ok ((ticks.foldl (step p) ls0).history.reverse)

end BacktestEngine

/-! ## Verification-layer definitions -/

/-- The realized-PnL formula of `close_partial_position`, by side:
`size·(price−entry)` for LONG, `size·(entry−price)` for SHORT. -/
def PerpModule.side_pnl (side : PositionSide) (size entry_price price : ℚ) : ℚ :=
  match side with
  | .LONG => size * (price - entry_price)
  | .SHORT => size * (entry_price - price)

/-- An `LPModule` operation of the kind the claims quantify over. -/
inductive LPOp where
  | updatePrice (p : ℚ)
  | accrueFee
  | checkAndRebalance
  deriving DecidableEq, Repr

/-- Apply one `LPOp` to an LP state. -/
def LPOp.apply (st : LPState) : LPOp → LPState
  | .updatePrice p => LPModule.update_price st p
  | .accrueFee => (LPModule.collect_fee st).1
  | .checkAndRebalance => (LPModule.check_and_rebalance st).1

/-- Run a sequence of `LPModule` operations. -/
def LPOp.run (st : LPState) (ops : List LPOp) : LPState :=
  ops.foldl LPOp.apply st

/-- A price-update operation carries a positive price (other operations carry
no price). -/
def LPOp.positivePrice : LPOp → Prop
  | .updatePrice p => 0 < p
  | _ => True

instance : DecidablePred LPOp.positivePrice := fun op => by
  unfold LPOp.positivePrice
  cases op <;> infer_instance

/-- The skew invariant claimed by the spec: `0 ≤ skew ≤ 1`, `skew = 1` iff the
price is at or below the lower bound, and `skew = 0` iff the price is at or
above the upper bound. -/
def skewInvariant (st : LPState) : Prop :=
  0 ≤ st.skew ∧ st.skew ≤ 1 ∧
  (st.skew = 1 ↔ st.current_price ≤ st.range_lower) ∧
  (st.skew = 0 ↔ st.range_upper ≤ st.current_price)

instance (st : LPState) : Decidable (skewInvariant st) := by
  unfold skewInvariant; infer_instance

/-- The strengthened induction invariant for `LPOp.run`: positive price,
positive range width, a proper range, and the skew invariant. -/
def lpStrongInv (st : LPState) : Prop :=
  0 < st.current_price ∧ 0 < st.config.range_width ∧
  st.range_lower < st.range_upper ∧ skewInvariant st

/-- The skew prescribed by the spec's exact square-root invariant
(`volatileAmt = L·(√upper−√p)/(√p·√upper)`, `stableAmt = L·(√p−√lower)`,
`skew = volatileAmt·p / (volatileAmt·p + stableAmt)`). -/
noncomputable def sqrtInvariantSkew (L lower upper p : ℝ) : ℝ :=
  let volatileAmt := L * (Real.sqrt upper - Real.sqrt p) / (Real.sqrt p * Real.sqrt upper)
  let stableAmt := L * (Real.sqrt p - Real.sqrt lower)
  volatileAmt * p / (volatileAmt * p + stableAmt)

/-! ### Concrete instances used by closed statements -/

/-- The `LPConfig` of `tests/test_lp.py` (`initial_capital=10000`,
`range_width=0.10`, `fee_tier=0.0005`, `daily_volume=1_000_000`,
`pool_tvl=10_000_000`, `rebalance_threshold=0.15`, `gas_fee=2.0`,
`slippage=0.001`). -/
def lpCfgTest : LPConfig :=
  { initial_capital := 10000
    range_width := 1/10
    fee_tier := 5/10000
    daily_volume := 1000000
    pool_tvl := 10000000
    rebalance_threshold := 15/100
    gas_fee := 2
    slippage := 1/1000 }

/-- The LP module of `tests/test_lp.py`: test config, start price 2000. -/
def lpTest : LPState := LPModule.init (fun _ => 0) lpCfgTest 2000

/-- `lpTest` after `update_price(2100)` (skew 1/4, value 10250). -/
def lpTest2100 : LPState := LPModule.update_price lpTest 2100

/-- A config whose range width `24/25` makes the bounds of a position opened
at price 25 the perfect squares 1 and 49 (so the spec's square roots are
exactly rational there). -/
def lpCfgSq : LPConfig := { lpCfgTest with range_width := 24/25 }

/-- Position opened at start price 25 with `lpCfgSq`: bounds `[1, 49]`. -/
def lpSq : LPState := LPModule.init (fun _ => 0) lpCfgSq 25

/-- `lpSq` after `update_price(4)` (price strictly inside the bounds). -/
def lpSq4 : LPState := LPModule.update_price lpSq 4

/-- A rational stand-in for `math.sqrt` at the two points
`_calculate_multiplier` evaluates it for `range_width = 0.10`
(`√1.1 ≈ 21/20`, `√0.9 ≈ 19/20`), giving a positive rational multiplier. -/
def sqrtApprox : ℚ → ℚ := fun q =>
  if q = 11/10 then 21/20 else if q = 9/10 then 19/20 else 0

/-- LP module with the source-default config (`range_width=0.10`,
`fee_tier=0.0005`, `daily_volume=3_560_000`, `pool_tvl=112_480_000`) opened at
the fee-scenario start price 2000. -/
def lpDefault : LPState := LPModule.init sqrtApprox {} 2000

/-- A perp state with one open SHORT of size 1 at entry 100, marked at market
price 100 (unrealized PnL 0, margin used `100/5 = 20`). -/
def perpShort1 : PerpState :=
  { config := { leverage := 5, taker_fee := 5/10000 }
    short := some { side := .SHORT, size := 1, entry_price := 100, unrealized_pnl := 0 }
    current_market_price := 100 }

/-- A perp state with one open SHORT of size 2 at entry 100, marked at market
price 110 (unrealized PnL `2·(100−110) = −20`, margin used `2·110/5 = 44`). -/
def perpShort2 : PerpState :=
  { config := { leverage := 5, taker_fee := 5/10000 }
    short := some { side := .SHORT, size := 2, entry_price := 100, unrealized_pnl := -20 }
    current_market_price := 110 }

/-- The portfolio of `tests/test_portfolio.py`: `PortfolioModule(10000.0)`. -/
def portTest : PortfolioState := PortfolioModule.init 10000

/-- An engine-portfolio instance (total capital 15000, 5000 on the exchange
wallet, empty ledgers). -/
def engPortW : EnginePortfolio :=
  { initial_capital := 15000, cex_wallet_balance := 5000, ledgers := fun _ => 0 }

/-- A freshly initialized engine over `lpTest`, an empty perp module and
`engPortW`. -/
def engW : EngineState :=
  BacktestEngine.init lpTest { config := { leverage := 5, taker_fee := 5/10000 } } engPortW

/-- A two-tick price feed (epoch seconds 0 and 3600, flat price 2000). -/
def feedW : List (ℤ × ℚ) := [(0, 2000), (3600, 2000)]

/-- The default `StrategyConfig` (ema 200, safety-net 0.02, hedge threshold
0.05). -/
def default_cfg : StrategyConfig := {}

end LpRebalHedge

/-! ## Theorems -/

namespace LpRebalHedge

/-- Claim C7: `checkAndRebalance` rebalances if and only if `|skew − 0.5|`
exceeds `rebalanceThreshold`; when it does, it deducts
`value·|skew−0.5|·slippageRate + gasCost` from the value, re-centers the
bounds to `currentPrice·(1∓rangeWidth)`, sets the skew to exactly `0.5`,
increments the rebalance counter and reports `(true, gasCost, slippageCost)`;
otherwise it reports `rebalanced = false` and changes nothing. -/
theorem check_and_rebalance_characterization (st : LPState) :
    ((LPModule.check_and_rebalance st).2.is_rebalanced = true ↔
      |st.skew - 1/2| > st.config.rebalance_threshold) ∧
    (|st.skew - 1/2| > st.config.rebalance_threshold →
      (LPModule.check_and_rebalance st).1.position_value =
        st.position_value - (st.position_value * |st.skew - 1/2| * st.config.slippage
          + st.config.gas_fee) ∧
      (LPModule.check_and_rebalance st).1.range_lower =
        st.current_price * (1 - st.config.range_width) ∧
      (LPModule.check_and_rebalance st).1.range_upper =
        st.current_price * (1 + st.config.range_width) ∧
      (LPModule.check_and_rebalance st).1.skew = 1/2 ∧
      (LPModule.check_and_rebalance st).1.rebalance_count = st.rebalance_count + 1 ∧
      (LPModule.check_and_rebalance st).2.gas_cost = st.config.gas_fee ∧
      (LPModule.check_and_rebalance st).2.slippage_cost =
        st.position_value * |st.skew - 1/2| * st.config.slippage) ∧
    (¬(|st.skew - 1/2| > st.config.rebalance_threshold) →
      LPModule.check_and_rebalance st =
        (st, { is_rebalanced := false, swap_volume_usd := 0, slippage_cost := 0,
               gas_cost := 0 })) := by
  simp only [LPModule.check_and_rebalance]
  split_ifs with h
  · refine ⟨iff_of_true rfl h, fun _ => ?_, fun hn => absurd h hn⟩
    refine ⟨by ring, rfl, rfl, rfl, rfl, rfl, by ring⟩
  · exact ⟨iff_of_false (by simp) h, fun hc => absurd hc h, fun _ => rfl⟩

/-- Claim C1 (amended): `record_transaction` credits the category ledger AND
moves `idle_cash` (the single cash balance) by the signed amount for every
category present in the ledger dict — LP-side categories (LP fee, gas,
slippage) included — and is a complete no-op (neither ledger nor cash) for a
category absent from the dict, in particular `DEPOSIT`. -/
theorem record_transaction_cash_semantics (st : PortfolioState)
    (category : TransactionType) (amount : ℚ) :
    (∀ v, st.ledgers category = some v →
      (PortfolioModule.record_transaction st category amount).idle_cash =
        st.idle_cash + amount ∧
      (PortfolioModule.record_transaction st category amount).ledgers category =
        some (v + amount)) ∧
    (st.ledgers category = none →
      PortfolioModule.record_transaction st category amount = st) := by
  unfold PortfolioModule.record_transaction
  constructor
  · intro v hv
    rw [hv]
    exact ⟨rfl, by simp⟩
  · intro hn
    rw [hn]

/-- Claim C1 counterexample: recording the LP-side category `REVENUE_LP_FEE`
(amount 150) on a fresh portfolio moves the cash balance, and recording the
venue-crossing category `DEPOSIT` (amount 50) leaves the whole portfolio
unchanged — the reverse of what the claim states. -/
theorem record_transaction_cash_counterexample :
    (PortfolioModule.record_transaction portTest .REVENUE_LP_FEE 150).idle_cash ≠
      portTest.idle_cash ∧
    PortfolioModule.record_transaction portTest .DEPOSIT 50 = portTest := by
  constructor
  · norm_num [portTest, PortfolioModule.init, PortfolioModule.record_transaction]
  · rfl



/-- Claim C4 (amended): `open_position` raises `MARGIN_CALL` if and only if
the requested size is positive and the passed collateral is strictly below
`addedMargin + fee` (with `addedMargin = addSize·price/leverage` and
`fee = addSize·price·takerFeeRate`); unrealized PnL and margin already in use
play no part in the check.  On failure the error is raised before any
mutation, so the position state is unchanged. -/
theorem open_position_margin_condition (st : PerpState) (side : PositionSide)
    (size_in_token cex_wallet_balance : ℚ) :
    PerpModule.open_position st side size_in_token cex_wallet_balance =
        Except.error "MARGIN_CALL" ↔
      (0 < size_in_token ∧
        cex_wallet_balance <
          size_in_token * st.current_market_price / st.config.leverage +
          size_in_token * st.current_market_price * st.config.taker_fee) := by
  simp only [PerpModule.open_position]
  split_ifs with h1 h2
  · exact iff_of_false (by simp) (fun hc => absurd hc.1 (not_lt.mpr h1))
  · refine iff_of_true rfl ⟨not_le.mp h1, by linarith⟩
  · refine iff_of_false (by simp) ?_
    rintro ⟨-, hlt⟩
    apply h2
    linarith



/-- Claim C4 counterexample: with an open SHORT of size 1 at entry 100 and
price 100 (margin used 20, unrealized PnL 0) and collateral 30, the claimed
condition `collateral + ΣunrealizedPnL − Σmarginused < addedMargin + fee`
holds (10 < 20.05) for a further SHORT of size 1, yet `open_position` does
not raise `MARGIN_CALL` — the code checks the collateral argument alone. -/
theorem open_position_margin_counterexample :
    (30 + PerpModule.get_total_unrealized_pnl perpShort1
        - PerpModule.get_total_margin_used perpShort1 <
      1 * perpShort1.current_market_price / perpShort1.config.leverage +
        1 * perpShort1.current_market_price * perpShort1.config.taker_fee) ∧
    PerpModule.open_position perpShort1 .SHORT 1 30 ≠ Except.error "MARGIN_CALL" := by
  constructor
  · norm_num [perpShort1, PerpModule.get_total_unrealized_pnl,
      PerpModule.get_total_margin_used]
  · intro hcontra
    norm_num [perpShort1, PerpModule.open_position, PerpModule.getPos] at hcontra
    exact Except.noConfusion hcontra

/-- Claim C6 counterexample: with trend signal +1 and a single-tick change of
+5% (`|pct| ≥ safetyNetPct = 2%`), `generate_orders` does not force the
signal to hedge-on: it emits a HEDGE_OFF order with target 0 and reason
"Signal Flip", not the safety-net tag — the trigger fires only on drops. -/
theorem safety_net_counterexample :
    (|(5/100 : ℚ)| ≥ (default_cfg : StrategyConfig).safety_net_pct) ∧
    StrategyModule.generate_orders 0 1 (5/100) 1 1 default_cfg =
      [{ timestamp := 0, target_module := "PERP", action := "HEDGE_OFF",
         target_size := 0, reason := "Signal Flip" }] := by
  constructor
  · rw [abs_of_pos (by norm_num)]
    norm_num [default_cfg]
  · norm_num [StrategyModule.generate_orders, default_cfg]

/-- Claim C6 (amended): the safety net fires only when the trend signal is
+1 and the single-tick change is a DROP of at least `safetyNetPct`
(`pct_change ≤ −safetyNetPct`); the effective signal is then forced to −1,
so every emitted order targets the full inventory and carries the reason
"Safety Net Triggered". -/
theorem safety_net_trigger (timestamp signal : ℤ) (pct_change actual_eth current_short : ℚ)
    (config : StrategyConfig) (hsig : signal = 1)
    (hpct : pct_change ≤ -config.safety_net_pct) :
    (StrategyModule.generate_orders timestamp signal pct_change actual_eth current_short
        config).all
      (fun o => o.reason == "Safety Net Triggered" && o.target_size == actual_eth) = true := by
  have hc : signal = 1 ∧ pct_change ≤ -config.safety_net_pct := ⟨hsig, hpct⟩
  simp only [StrategyModule.generate_orders, if_pos hc, decide_eq_true hc]
  split_ifs <;> simp

/-- Claim C6 witness: concrete instance (signal +1, tick change −3%,
inventory 1, no current short) of `safety_net_trigger`. -/
theorem safety_net_trigger_witness :
    (StrategyModule.generate_orders 0 1 (-(3/100)) 1 0 default_cfg).all
      (fun o => o.reason == "Safety Net Triggered" && o.target_size == 1) = true :=
  safety_net_trigger 0 1 (-(3/100)) 1 0 default_cfg rfl (by norm_num [default_cfg])



/-- helper: getPos after setPos -/
theorem getPos_setPos (st : PerpState) (side : PositionSide) (x : Option Position) :
    PerpModule.getPos (PerpModule.setPos st side x) side = x := by
  cases side <;> rfl

/-- helper: getPos after update_market_price -/
theorem getPos_update_market_price (st : PerpState) (p : ℚ) (side : PositionSide) :
    PerpModule.getPos (PerpModule.update_market_price st p) side =
      (PerpModule.getPos st side).map (PerpModule.markPos p) := by
  cases side <;> rfl

/-- Claim C2 (amended): `update_price` is the LINEAR bookkeeping of
`src/src/lp/lp.py`, not the square-root invariant: value is marked by
applying the price change to the base-asset share
(`value·(1 + skew·Δ%)`), and skew is 1 at or below the lower bound, 0 at or
above the upper bound, and the linear interpolation
`1 − (p−lower)/(upper−lower)` strictly inside. -/
theorem update_price_linear (st : LPState) (p : ℚ) (h : 0 < st.current_price) :
    (LPModule.update_price st p).current_price = p ∧
    (LPModule.update_price st p).position_value =
      st.position_value * (1 + st.skew * ((p - st.current_price) / st.current_price)) ∧
    (LPModule.update_price st p).skew =
      (if p ≤ st.range_lower then 1
       else if st.range_upper ≤ p then 0
       else 1 - (p - st.range_lower) / (st.range_upper - st.range_lower)) := by
  simp only [LPModule.update_price, if_neg (not_le.mpr h)]
  exact ⟨trivial, by ring, trivial⟩

/-- Claim C2 witness: `update_price_linear` applied to the test position
(bounds `[1800, 2200]`) at price 2100. -/
theorem update_price_linear_witness :
    (LPModule.update_price lpTest 2100).current_price = 2100 ∧
    (LPModule.update_price lpTest 2100).position_value =
      lpTest.position_value * (1 + lpTest.skew * ((2100 - lpTest.current_price) / lpTest.current_price)) ∧
    (LPModule.update_price lpTest 2100).skew =
      (if (2100:ℚ) ≤ lpTest.range_lower then 1
       else if lpTest.range_upper ≤ 2100 then 0
       else 1 - (2100 - lpTest.range_lower) / (lpTest.range_upper - lpTest.range_lower)) :=
  update_price_linear lpTest 2100 (by norm_num [lpTest, LPModule.init])

/-- Claim C2 counterexample: at bounds `[1, 49]` and price 4 (all perfect
squares, so the spec formula is exactly evaluable), the code computes
skew `15/16` while the exact square-root invariant of the spec gives
`10/17` (for any liquidity constant; shown at `L = 1`) — `update_price` is a
linear approximation, not the sqrt invariant. -/
theorem update_price_not_sqrt_invariant :
    lpSq4.range_lower = 1 ∧ lpSq4.range_upper = 49 ∧ lpSq4.current_price = 4 ∧
    ((lpSq4.skew : ℝ) ≠
      sqrtInvariantSkew 1 (lpSq4.range_lower : ℝ) (lpSq4.range_upper : ℝ)
        (lpSq4.current_price : ℝ)) := by
  have h1 : lpSq4.range_lower = 1 := by
    norm_num [lpSq4, lpSq, lpCfgSq, lpCfgTest, LPModule.init, LPModule.update_price]
  have h2 : lpSq4.range_upper = 49 := by
    norm_num [lpSq4, lpSq, lpCfgSq, lpCfgTest, LPModule.init, LPModule.update_price]
  have h3 : lpSq4.current_price = 4 := by
    norm_num [lpSq4, lpSq, lpCfgSq, lpCfgTest, LPModule.init, LPModule.update_price]
  have h4 : lpSq4.skew = 15/16 := by
    norm_num [lpSq4, lpSq, lpCfgSq, lpCfgTest, LPModule.init, LPModule.update_price]
  refine ⟨h1, h2, h3, ?_⟩
  rw [h1, h2, h3, h4]
  unfold sqrtInvariantSkew
  have s49 : Real.sqrt ((49:ℚ) : ℝ) = 7 := by
    rw [show ((49:ℚ) : ℝ) = 7^2 by norm_num]
    exact Real.sqrt_sq (by norm_num)
  have s4 : Real.sqrt ((4:ℚ) : ℝ) = 2 := by
    rw [show ((4:ℚ) : ℝ) = 2^2 by norm_num]
    exact Real.sqrt_sq (by norm_num)
  have s1 : Real.sqrt ((1:ℚ) : ℝ) = 1 := by
    rw [show ((1:ℚ) : ℝ) = (1:ℝ) by norm_num]
    exact Real.sqrt_one
  rw [s49, s4, s1]
  push_cast
  norm_num

/-- Claim C5 (amended): `collect_fee` accrues, when the price is strictly
inside the bounds, the pool-share hourly fee
`value/poolTVL · (dailyVolume/24) · feeTier · multiplier` — not an
annualized `value·(yieldRate·multiplier)/ticksPerYear` (the config has no
yield rate or ticks-per-year) — adding it to both the position value and the
accumulated fees, and accrues 0 when the price is on or outside the
bounds. -/
theorem collect_fee_characterization (st : LPState) :
    ((st.range_lower < st.current_price ∧ st.current_price < st.range_upper) →
      (LPModule.collect_fee st).2 =
        st.position_value / st.config.pool_tvl * (st.config.daily_volume / 24) *
          st.config.fee_tier * st.multiplier ∧
      (LPModule.collect_fee st).1.position_value =
        st.position_value + (LPModule.collect_fee st).2 ∧
      (LPModule.collect_fee st).1.accumulated_fees =
        st.accumulated_fees + (LPModule.collect_fee st).2 ∧
      (LPModule.collect_fee st).1.skew = st.skew ∧
      (LPModule.collect_fee st).1.current_price = st.current_price) ∧
    (¬(st.range_lower < st.current_price ∧ st.current_price < st.range_upper) →
      LPModule.collect_fee st = (st, 0)) := by
  simp only [LPModule.collect_fee]
  split_ifs with h
  · exact ⟨fun _ => ⟨rfl, rfl, rfl, rfl, rfl⟩, fun hn => absurd h hn⟩
  · exact ⟨fun hc => absurd hc h, fun _ => rfl⟩

/-- Claim C5 counterexample: on the source-default pool config at start
price 2000 (strictly in range, positive multiplier), the fee collected in
one tick differs from the claimed
`value·(0.05·multiplier)/8760` of the yield-rate scenario. -/
theorem collect_fee_not_annualized :
    lpDefault.range_lower < lpDefault.current_price ∧
    lpDefault.current_price < lpDefault.range_upper ∧
    0 < lpDefault.multiplier ∧
    (LPModule.collect_fee lpDefault).2 ≠
      lpDefault.position_value * ((5/100) * lpDefault.multiplier) / 8760 := by
  norm_num [lpDefault, LPModule.init, LPModule.collect_fee,
    LPModule.calculate_multiplier, sqrtApprox]



/-- helper: update_market_price sets the price -/
theorem update_market_price_price (st : PerpState) (p : ℚ) :
    (PerpModule.update_market_price st p).current_market_price = p := rfl

/-- helper: update_market_price keeps the config -/
theorem update_market_price_config (st : PerpState) (p : ℚ) :
    (PerpModule.update_market_price st p).config = st.config := rfl

/-- helper: setPos keeps the price -/
theorem setPos_price (st : PerpState) (side : PositionSide) (x : Option Position) :
    (PerpModule.setPos st side x).current_market_price = st.current_market_price := by
  cases side <;> rfl

/-- helper: setPos keeps the config -/
theorem setPos_config (st : PerpState) (side : PositionSide) (x : Option Position) :
    (PerpModule.setPos st side x).config = st.config := by
  cases side <;> rfl

/-- helper: markPos keeps the size -/
theorem markPos_size (p : ℚ) (pos : Position) :
    (PerpModule.markPos p pos).size = pos.size := by
  rcases pos with ⟨side, size, entry, u⟩
  cases side <;> rfl

/-- Claim C8 (amended): for an open, marked position, a partial close
realizes exactly `unrealizedPnL·(closedSize/size)` and charges the taker fee
on the closed notional only, where the closed size is `min(closeSize, size)`;
if the remaining size exceeds the `1e-9` dust threshold the position's size
and per-side margin shrink exactly proportionally, and otherwise (in
particular whenever `closeSize ≥ size`) the position is removed.  The claim's
unqualified "every closeSize strictly smaller than the position size leaves a
proportionally reduced position" fails inside the dust window. -/
theorem close_partial_proportional (st : PerpState) (side : PositionSide) (pos : Position)
    (size_to_close : ℚ) (hpos : PerpModule.getPos st side = some pos)
    (hmark : pos.unrealized_pnl =
      PerpModule.side_pnl side pos.size pos.entry_price st.current_market_price)
    (hsize : 0 < pos.size) (_hclose : 0 < size_to_close) :
    (PerpModule.close_partial_position st side size_to_close).2.1 =
      min size_to_close pos.size / pos.size * pos.unrealized_pnl ∧
    (PerpModule.close_partial_position st side size_to_close).2.2 =
      min size_to_close pos.size * st.current_market_price * st.config.taker_fee ∧
    (1/1000000000 < pos.size - size_to_close →
      (∃ pos', PerpModule.getPos (PerpModule.close_partial_position st side size_to_close).1
          side = some pos' ∧
        pos'.size = pos.size - size_to_close ∧
        PerpModule.margin_of (PerpModule.close_partial_position st side size_to_close).1 side =
          PerpModule.margin_of st side * ((pos.size - size_to_close) / pos.size))) ∧
    (pos.size - size_to_close ≤ 1/1000000000 →
      PerpModule.getPos (PerpModule.close_partial_position st side size_to_close).1 side =
        none) := by
  simp only [PerpModule.close_partial_position, hpos]
  refine ⟨?_, trivial, ?_, ?_⟩
  · -- realized pnl is proportional to the closed fraction
    rw [hmark]
    cases side <;>
      · simp only [PerpModule.side_pnl]
        field_simp
        ring
  · intro hdust
    have hlt : size_to_close < pos.size := by linarith
    have hminc : min size_to_close pos.size = size_to_close := min_eq_left (le_of_lt hlt)
    have hcond : ¬(pos.size - min size_to_close pos.size ≤ 1/1000000000) := by
      rw [hminc]
      exact not_le.mpr (by linarith)
    rw [if_neg hcond]
    refine ⟨PerpModule.markPos st.current_market_price
      { pos with size := pos.size - size_to_close }, ?_, ?_, ?_⟩
    · rw [getPos_update_market_price, getPos_setPos, hminc]
      rfl
    · rw [markPos_size]
    · simp only [PerpModule.margin_of, getPos_update_market_price, getPos_setPos, hpos,
        update_market_price_price, update_market_price_config, setPos_price, setPos_config,
        Option.map_map, Option.map_some', Option.getD_some, Function.comp]
      rw [markPos_size, hminc]
      have hne : pos.size ≠ 0 := ne_of_gt hsize
      have hcancel : pos.size * pos.size⁻¹ = 1 := mul_inv_cancel₀ hne
      field_simp
      linear_combination (-(st.current_market_price * st.config.leverage⁻¹ *
        (pos.size - size_to_close))) * hcancel
  · intro hdust
    have hcond : pos.size - min size_to_close pos.size ≤ 1/1000000000 := by
      rcases le_total size_to_close pos.size with hc | hc
      · rw [min_eq_left hc]
        exact hdust
      · rw [min_eq_right hc]
        norm_num
    rw [if_pos hcond]
    exact getPos_setPos _ _ _



/-- Claim C8 witness: closing 1 of a SHORT of size 2 (entry 100, price 110,
unrealized −20) realizes exactly −10 (50% of the PnL), pays fee `11/200` on
the closed notional, and halves the margin used. -/
theorem close_partial_proportional_witness :
    (PerpModule.close_partial_position perpShort2 .SHORT 1).2.1 = -10 ∧
    (PerpModule.close_partial_position perpShort2 .SHORT 1).2.2 = 11/200 ∧
    PerpModule.margin_of (PerpModule.close_partial_position perpShort2 .SHORT 1).1 .SHORT =
      PerpModule.margin_of perpShort2 .SHORT * (1/2) := by
  have h := close_partial_proportional perpShort2 .SHORT
    { side := .SHORT, size := 2, entry_price := 100, unrealized_pnl := -20 } 1
    (by norm_num [perpShort2, PerpModule.getPos])
    (by norm_num [perpShort2, PerpModule.side_pnl])
    (by norm_num) (by norm_num)
  obtain ⟨h1, h2, h3, -⟩ := h
  obtain ⟨pos', -, -, hm⟩ := h3 (by norm_num)
  refine ⟨?_, ?_, ?_⟩
  · rw [h1]
    norm_num
  · rw [h2]
    norm_num [perpShort2]
  · rw [hm]
    norm_num

/-- Claim C8 counterexample: closing `1 − 1e-10` of a size-1 position — a
closeSize strictly smaller than the position size — removes the position
entirely (remaining `1e-10 ≤ 1e-9` dust), instead of leaving a
proportionally reduced position as the claim states. -/
theorem close_partial_dust_counterexample :
    ((1 : ℚ) - 1/10000000000 < 1) ∧
    PerpModule.getPos
        (PerpModule.close_partial_position perpShort1 .SHORT (1 - 1/10000000000)).1 .SHORT
      = none := by
  constructor
  · norm_num
  · have hmin : min ((1 : ℚ) - 1/10000000000) 1 = 1 - 1/10000000000 :=
      min_eq_left (by norm_num)
    simp only [PerpModule.close_partial_position, perpShort1, PerpModule.getPos, hmin]
    rw [if_pos (by norm_num)]
    rfl

/-- Claim C10: closing a side with no open position returns `(0, 0)` and
leaves the whole module state unchanged; with an open position the closed
size is capped at `min(closeSize, size)`, so the realized PnL and the fee are
computed on the capped size, and requesting more than the open size realizes
exactly the full position PnL with the fee charged on the open size's
notional only. -/
theorem close_partial_missing_and_capped (st : PerpState) (side : PositionSide)
    (size_to_close : ℚ) :
    (PerpModule.getPos st side = none →
      PerpModule.close_partial_position st side size_to_close = (st, 0, 0)) ∧
    (∀ pos, PerpModule.getPos st side = some pos →
      (PerpModule.close_partial_position st side size_to_close).2.1 =
        PerpModule.side_pnl side (min size_to_close pos.size) pos.entry_price
          st.current_market_price ∧
      (PerpModule.close_partial_position st side size_to_close).2.2 =
        min size_to_close pos.size * st.current_market_price * st.config.taker_fee ∧
      (pos.size ≤ size_to_close →
        pos.unrealized_pnl =
          PerpModule.side_pnl side pos.size pos.entry_price st.current_market_price →
        (PerpModule.close_partial_position st side size_to_close).2.1 =
          pos.unrealized_pnl ∧
        (PerpModule.close_partial_position st side size_to_close).2.2 =
          pos.size * st.current_market_price * st.config.taker_fee)) := by
  constructor
  · intro hnone
    simp only [PerpModule.close_partial_position, hnone]
  · intro pos hpos
    have hr : (PerpModule.close_partial_position st side size_to_close).2.1 =
        PerpModule.side_pnl side (min size_to_close pos.size) pos.entry_price
          st.current_market_price := by
      simp only [PerpModule.close_partial_position, hpos]
      cases side <;> rfl
    have hf : (PerpModule.close_partial_position st side size_to_close).2.2 =
        min size_to_close pos.size * st.current_market_price * st.config.taker_fee := by
      simp only [PerpModule.close_partial_position, hpos]
    refine ⟨hr, hf, ?_⟩
    intro hcap hmark
    have hminc : min size_to_close pos.size = pos.size := min_eq_right hcap
    constructor
    · rw [hr, hminc, hmark]
    · rw [hf, hminc]

/-- Claim C10 witness: closing the missing LONG side of `perpShort2` is a
no-op returning `(0,0)`; requesting 5 against its open SHORT of size 2
realizes the full −20 PnL and pays the fee on notional `2·110` only. -/
theorem close_partial_missing_and_capped_witness :
    PerpModule.close_partial_position perpShort2 .LONG 1 = (perpShort2, 0, 0) ∧
    (PerpModule.close_partial_position perpShort2 .SHORT 5).2.1 = -20 ∧
    (PerpModule.close_partial_position perpShort2 .SHORT 5).2.2 = 11/100 := by
  refine ⟨(close_partial_missing_and_capped perpShort2 .LONG 1).1 rfl, ?_, ?_⟩
  · have h := ((close_partial_missing_and_capped perpShort2 .SHORT 5).2
      { side := .SHORT, size := 2, entry_price := 100, unrealized_pnl := -20 } rfl).2.2
      (by norm_num) (by norm_num [perpShort2, PerpModule.side_pnl])
    rw [h.1]
  · have h := ((close_partial_missing_and_capped perpShort2 .SHORT 5).2
      { side := .SHORT, size := 2, entry_price := 100, unrealized_pnl := -20 } rfl).2.2
      (by norm_num) (by norm_num [perpShort2, PerpModule.side_pnl])
    rw [h.2]
    norm_num [perpShort2]



/-- helper: the strong invariant holds after `__init__`. -/
theorem lpStrongInv_init (sqrtfn : ℚ → ℚ) (config : LPConfig) (start_price : ℚ)
    (hs : 0 < start_price) (hw : 0 < config.range_width) :
    lpStrongInv (LPModule.init sqrtfn config start_price) := by
  have hsw : 0 < start_price * config.range_width := mul_pos hs hw
  simp only [lpStrongInv, skewInvariant, LPModule.init]
  refine ⟨hs, hw, by nlinarith, by norm_num, by norm_num,
    iff_of_false (by norm_num) (by intro hc; nlinarith),
    iff_of_false (by norm_num) (by intro hc; nlinarith)⟩

/-- helper: `update_price` with a positive price preserves the invariant. -/
theorem lpStrongInv_update (st : LPState) (p : ℚ) (hI : lpStrongInv st) (hp : 0 < p) :
    lpStrongInv (LPModule.update_price st p) := by
  obtain ⟨hpr, hw, hlu, -⟩ := hI
  simp only [LPModule.update_price, if_neg (not_le.mpr hpr)]
  refine ⟨hp, hw, hlu, ?_⟩
  by_cases h1 : p ≤ st.range_lower
  · rw [if_pos h1]
    exact ⟨by norm_num, by norm_num, iff_of_true rfl h1,
      iff_of_false (by norm_num) (by intro hc; linarith)⟩
  · rw [if_neg h1]
    by_cases h2 : p ≥ st.range_upper
    · rw [if_pos h2]
      exact ⟨by norm_num, by norm_num,
        iff_of_false (by norm_num) (by intro hc; linarith),
        iff_of_true rfl h2⟩
    · rw [if_neg h2]
      push_neg at h1 h2
      have hq1 : 0 < (p - st.range_lower) / (st.range_upper - st.range_lower) :=
        div_pos (by linarith) (by linarith)
      have hq2 : (p - st.range_lower) / (st.range_upper - st.range_lower) < 1 :=
        (div_lt_one (by linarith)).mpr (by linarith)
      refine ⟨by linarith, by linarith, ?_, ?_⟩
      · exact iff_of_false (by intro hc; nlinarith) (by intro hc; linarith)
      · exact iff_of_false (by intro hc; nlinarith) (by intro hc; linarith)

/-- helper: `collect_fee` preserves the invariant. -/
theorem lpStrongInv_fee (st : LPState) (hI : lpStrongInv st) :
    lpStrongInv (LPModule.collect_fee st).1 := by
  simp only [LPModule.collect_fee]
  split_ifs with h
  · exact hI
  · exact hI

/-- helper: `check_and_rebalance` preserves the invariant. -/
theorem lpStrongInv_rebalance (st : LPState) (hI : lpStrongInv st) :
    lpStrongInv (LPModule.check_and_rebalance st).1 := by
  obtain ⟨hpr, hw, hlu, hsk⟩ := hI
  simp only [LPModule.check_and_rebalance]
  split_ifs with h
  · have hpw : 0 < st.current_price * st.config.range_width := mul_pos hpr hw
    refine ⟨hpr, hw, by nlinarith, by norm_num, by norm_num, ?_, ?_⟩
    · exact iff_of_false (by norm_num) (by intro hc; nlinarith)
    · exact iff_of_false (by norm_num) (by intro hc; nlinarith)
  · exact ⟨hpr, hw, hlu, hsk⟩

/-- helper: running a list of positive-price operations preserves the invariant. -/
theorem lpStrongInv_run (ops : List LPOp) :
    ∀ st : LPState, lpStrongInv st → (∀ op ∈ ops, LPOp.positivePrice op) →
      lpStrongInv (LPOp.run st ops) := by
  induction ops with
  | nil => exact fun st h _ => h
  | cons op rest ih =>
    intro st h hops
    have hstep : lpStrongInv (LPOp.apply st op) := by
      cases op with
      | updatePrice p =>
        exact lpStrongInv_update st p h (hops _ (List.mem_cons_self _ _))
      | accrueFee => exact lpStrongInv_fee st h
      | checkAndRebalance => exact lpStrongInv_rebalance st h
    have htail : ∀ o ∈ rest, LPOp.positivePrice o :=
      fun o ho => hops o (List.mem_cons_of_mem _ ho)
    exact ih (LPOp.apply st op) hstep htail

/-- Claim C9: after any sequence of LP operations (starting from
`__init__` with positive start price and range width, and applying
`update_price` at positive prices, `collect_fee` and `check_and_rebalance`
in any order), the skew satisfies `0 ≤ skew ≤ 1`, equals 1 exactly when the
price is at or below the lower bound, and equals 0 exactly when the price is
at or above the upper bound. -/
theorem skew_invariant_after_ops (sqrtfn : ℚ → ℚ) (config : LPConfig)
    (start_price : ℚ) (ops : List LPOp) (hs : 0 < start_price)
    (hw : 0 < config.range_width) (hops : ∀ op ∈ ops, LPOp.positivePrice op) :
    skewInvariant (LPOp.run (LPModule.init sqrtfn config start_price) ops) :=
  (lpStrongInv_run ops (LPModule.init sqrtfn config start_price)
    (lpStrongInv_init sqrtfn config start_price hs hw) hops).2.2.2

/-- Claim C9 witness: the invariant at the concrete run
`init; update_price 2100; collect_fee; check_and_rebalance` on the test
config. -/
theorem skew_invariant_after_ops_witness :
    skewInvariant (LPOp.run (LPModule.init (fun _ => 0) lpCfgTest 2000)
      [LPOp.updatePrice 2100, LPOp.accrueFee, LPOp.checkAndRebalance]) :=
  skew_invariant_after_ops (fun _ => 0) lpCfgTest 2000
    [LPOp.updatePrice 2100, LPOp.accrueFee, LPOp.checkAndRebalance]
    (by norm_num) (by norm_num [lpCfgTest])
    (by
      intro op hop
      simp only [List.mem_cons, List.not_mem_nil, or_false] at hop
      rcases hop with h | h | h <;> subst h <;> norm_num [LPOp.positivePrice])



/-- helper: `emaAux` preserves length. -/
theorem emaAux_length (alpha : ℚ) (cs : List ℚ) :
    ∀ prev, (StrategyModule.emaAux alpha prev cs).length = cs.length := by
  induction cs with
  | nil => intro prev; rfl
  | cons c cs ih =>
    intro prev
    simp only [StrategyModule.emaAux, List.length_cons, ih]

/-- helper: `emaList` preserves length. -/
theorem emaList_length (alpha : ℚ) (cs : List ℚ) :
    (StrategyModule.emaList alpha cs).length = cs.length := by
  cases cs with
  | nil => rfl
  | cons c cs => simp only [StrategyModule.emaList, List.length_cons, emaAux_length]

/-- helper: `pctAux` preserves length. -/
theorem pctAux_length (cs : List ℚ) :
    ∀ prev, (StrategyModule.pctAux prev cs).length = cs.length := by
  induction cs with
  | nil => intro prev; rfl
  | cons c cs ih =>
    intro prev
    simp only [StrategyModule.pctAux, List.length_cons, ih]

/-- helper: `pctList` preserves length. -/
theorem pctList_length (cs : List ℚ) :
    (StrategyModule.pctList cs).length = cs.length := by
  cases cs with
  | nil => rfl
  | cons c cs => simp only [StrategyModule.pctList, List.length_cons, pctAux_length]

/-- helper: the prepared data frame has one row per feed entry. -/
theorem buildTicks_length (config : StrategyConfig) (feed : List (ℤ × ℚ)) :
    (StrategyModule.buildTicks config feed).length = feed.length := by
  simp only [StrategyModule.buildTicks, List.length_map, List.length_zip,
    emaList_length, pctList_length]
  simp

/-- helper: each engine-loop step appends exactly one history row. -/
theorem step_history_length (p : BacktestEngine.RunParams) (ls : BacktestEngine.LoopState)
    (t : Tick) :
    (BacktestEngine.step p ls t).history.length = ls.history.length + 1 := by
  simp [BacktestEngine.step]

/-- helper: folding the engine step over the ticks appends one row per tick. -/
theorem foldl_step_history_length (p : BacktestEngine.RunParams) (ts : List Tick) :
    ∀ ls : BacktestEngine.LoopState,
      (ts.foldl (BacktestEngine.step p) ls).history.length =
        ls.history.length + ts.length := by
  induction ts with
  | nil => intro ls; rfl
  | cons t ts ih =>
    intro ls
    simp only [List.foldl_cons, ih, step_history_length, List.length_cons]
    omega

/-- Claim C3 (amended): for every NON-EMPTY price series and configuration,
`run` completes and returns exactly one row per tick, and a `MARGIN_CALL`
failure of order execution never escapes the orchestrator: the engine's
try/except block always returns a state and surfaces the failure as a
structured `MARGIN_CALL_REJECT` (or `EMERGENCY_RESCUE`) event tag.  (The
un-amended "every input" fails on the empty series, which hits
`.iloc[0]` on the date column before the loop.) -/
theorem run_completes_and_margin_caught (eng : EngineState) (feed : List (ℤ × ℚ))
    (strategy_config : StrategyConfig) (funding_rate : ℚ)
    (harvest_config : Option HarvestConfig) (cross_rebalance_config : Option CrossConfig)
    (execution_interval_min : ℤ) (hne : feed ≠ []) :
    (BacktestEngine.run eng feed strategy_config funding_rate harvest_config
        cross_rebalance_config execution_interval_min).map List.length =
      Except.ok feed.length ∧
    (∀ (eng2 : EngineState) (order : OrderEvent) (price : ℚ) (e : String),
      BacktestEngine.execute_perp_order eng2 order price = Except.error e →
      "MARGIN_CALL_REJECT" ∈ (BacktestEngine.hedge_try eng2 order price).2 ∨
      "EMERGENCY_RESCUE" ∈ (BacktestEngine.hedge_try eng2 order price).2) := by
  constructor
  · cases hb : StrategyModule.buildTicks strategy_config feed with
    | nil =>
      exfalso
      have hlen := buildTicks_length strategy_config feed
      rw [hb] at hlen
      exact hne (List.eq_nil_of_length_eq_zero hlen.symm)
    | cons t0 ts =>
      have hlen := buildTicks_length strategy_config feed
      rw [hb] at hlen
      simp only [BacktestEngine.run, hb, Except.map]
      rw [List.length_reverse, foldl_step_history_length]
      simp only [List.length_cons] at hlen ⊢
      rw [← hlen]
      simp
  · intro eng2 order price e herr
    simp only [BacktestEngine.hedge_try, herr]
    split_ifs with hr
    · cases h2 : BacktestEngine.execute_perp_order
        (BacktestEngine.attempt_rescue eng2 order price).1 order price with
      | ok r => simp [h2]
      | error e2 => simp [h2, BacktestEngine.log_margin_failure]
    · simp [BacktestEngine.log_margin_failure]

/-- Claim C3 witness: `run_completes_and_margin_caught` at a concrete
two-tick flat feed. -/
theorem run_completes_witness :
    (BacktestEngine.run engW feedW default_cfg (1/10000) none none 1).map List.length =
      Except.ok 2 ∧
    (∀ (eng2 : EngineState) (order : OrderEvent) (price : ℚ) (e : String),
      BacktestEngine.execute_perp_order eng2 order price = Except.error e →
      "MARGIN_CALL_REJECT" ∈ (BacktestEngine.hedge_try eng2 order price).2 ∨
      "EMERGENCY_RESCUE" ∈ (BacktestEngine.hedge_try eng2 order price).2) := by
  have h := run_completes_and_margin_caught engW feedW default_cfg (1/10000) none none 1
    (by simp [feedW])
  exact ⟨by rw [h.1]; rfl, h.2⟩

/-- Claim C3 counterexample: on the empty price series the engine raises
`IndexError` at `.iloc[0]` on the date column before any tick executes — the run
does not complete with a result table. -/
theorem run_empty_feed_errors :
    BacktestEngine.run engW [] default_cfg (1/10000) none none 1 =
      Except.error "IndexError" := rfl

end LpRebalHedge
